import Mathlib

/-!
Shallow embedding of `src/main.cpp` from esp-roomba-mqtt: the sensor-stream
decoder (`parseRoombaStateFromStreamPacket`), the decode-and-replace pipeline
(`readSensorPacket`), the command translator (`performCommand`), the status
publisher (`sendStatus`) and the publish-tick of the scheduler (`loop`).

Machine integers are modelled as `Nat`/`Int` with explicit reduction modulo
2^16 where the C code narrows `int` expressions into `int16_t`/`uint16_t`
struct fields.  The raw packet buffer is a total function `Nat → Nat`
(byte-valued): the C array `roombaPacket[100]` has readable garbage past the
declared `length`, and the decoder does read past `length` on a truncated
final entry, so an index-total buffer is the faithful model.
-/

namespace Roomba

/-- Narrowing an `int` expression into a `uint16_t` field: value mod 2^16. -/
def toUInt16 (n : Nat) : Nat := n % 65536

/-- Narrowing an `int` expression into an `int16_t` field: value mod 2^16,
reinterpreted as a signed 16-bit two's-complement quantity. -/
def toInt16 (n : Nat) : Int :=
  if n % 65536 < 32768 then ((n % 65536 : Nat) : Int)
  else ((n % 65536 : Nat) : Int) - 65536

/-- The struct `RoombaState` of `main.cpp` (lines 29-46): decoded sensor
values, the derived `cleaning`/`docked` booleans, the decode timestamp and
the published-already flag. -/
structure RoombaState where
  distance : Int
  chargingState : Nat
  voltage : Nat
  current : Int
  charge : Int
  capacity : Nat
  cleaning : Bool
  docked : Bool
  timestamp : Nat
  sent : Bool
deriving Repr, DecidableEq

/-- `RoombaState roombaState = {};` — the zero-valued state (also the value of
the local `RoombaState rs = {};` in `readSensorPacket`). -/
def initState : RoombaState :=
  { distance := 0, chargingState := 0, voltage := 0, current := 0,
    charge := 0, capacity := 0, cleaning := false, docked := false,
    timestamp := 0, sent := false }

/-- Byte width consumed by each case of the `switch` in
`parseRoombaStateFromStreamPacket` (`i += w`); `none` is the `default:`
case (unrecognized packet ID, hard decode failure). -/
def entryWidth (b : Nat) : Option Nat :=
  if b = 0 then some 27        -- Roomba::Sensors7to26
  else if b = 1 then some 11   -- Roomba::Sensors7to16
  else if b = 13 then some 2   -- Roomba::SensorVirtualWall
  else if b = 19 then some 3   -- Roomba::SensorDistance
  else if b = 21 then some 2   -- Roomba::SensorChargingState
  else if b = 22 then some 3   -- Roomba::SensorVoltage
  else if b = 23 then some 3   -- Roomba::SensorCurrent
  else if b = 25 then some 3   -- Roomba::SensorBatteryCharge
  else if b = 26 then some 3   -- Roomba::SensorBatteryCapacity
  else if b = 7 then some 2    -- Roomba::SensorBumpsAndWheelDrops
  else if b = 128 then some 2  -- Unknown
  else none                    -- default: return false

/-- A packet ID the `switch` recognizes (every case except `default:`). -/
def recognizedId (b : Nat) : Bool := (entryWidth b).isSome

/-- The field assignment performed by the `switch` case for the ID at
position `i` (group/skip IDs assign nothing).  `packet[i+1] * 256 +
packet[i+2]` is big-endian 16-bit; narrowing into the `int16_t`/`uint16_t`
struct fields is the mod-2^16 reduction. -/
def entryUpdate (packet : Nat → Nat) (i : Nat) (s : RoombaState) : RoombaState :=
  if packet i = 19 then { s with distance := toInt16 (packet (i+1) * 256 + packet (i+2)) }
  else if packet i = 21 then { s with chargingState := packet (i+1) }
  else if packet i = 22 then { s with voltage := toUInt16 (packet (i+1) * 256 + packet (i+2)) }
  else if packet i = 23 then { s with current := toInt16 (packet (i+1) * 256 + packet (i+2)) }
  else if packet i = 25 then { s with charge := toInt16 (packet (i+1) * 256 + packet (i+2)) }
  else if packet i = 26 then { s with capacity := toUInt16 (packet (i+1) * 256 + packet (i+2)) }
  else s

/-- The `while (i < length)` scan loop of `parseRoombaStateFromStreamPacket`.
Each iteration advances `i` by at least 2, so `length` units of fuel always
suffice; fuel exhaustion below that is unreachable for the actual entry
point `parseRoombaStateFromStreamPacket`, which passes `fuel = length`. -/
def parseLoop (packet : Nat → Nat) (length : Nat) :
    Nat → Nat → RoombaState → Bool × RoombaState
  | 0, _, s => (true, s)
  | fuel + 1, i, s =>
    if i < length then
      match entryWidth (packet i) with
      | some w => parseLoop packet length fuel (i + w) (entryUpdate packet i s)
      | none => (false, s)
    else (true, s)

/-- `parseRoombaStateFromStreamPacket(packet, length, state)`: stamps
`state->timestamp = millis()` (`now`), then runs the scan loop from `i = 0`.
Returns the success flag and the (possibly partially written) state. -/
def parseRoombaStateFromStreamPacket (packet : Nat → Nat) (length : Nat)
    (now : Nat) (s : RoombaState) : Bool × RoombaState :=
  parseLoop packet length length 0 { s with timestamp := now }

/-- Positions `i` examined by the scan loop (the loop stops scanning at the
first unrecognized ID, and `entryWidth` gives the same `i += w` strides). -/
def scanAux (packet : Nat → Nat) (length : Nat) : Nat → Nat → List Nat
  | 0, _ => []
  | fuel + 1, i =>
    if i < length then
      match entryWidth (packet i) with
      | some w => i :: scanAux packet length fuel (i + w)
      | none => [i]
    else []

/-- All scan positions of a decode of `packet` with declared `length`. -/
def scanPositions (packet : Nat → Nat) (length : Nat) : List Nat :=
  scanAux packet length length 0

/-- The derived-state estimator inlined in `readSensorPacket` (lines
379-385): clear both flags, then `cleaning` iff `current < -400`, else
`docked` iff `current > -50`. -/
def estimate (s : RoombaState) : RoombaState :=
  let s0 := { s with cleaning := false, docked := false }
  if s0.current < -400 then { s0 with cleaning := true }
  else if s0.current > -50 then { s0 with docked := true }
  else s0

/-- `readSensorPacket()`: `recv = none` models `pollSensors` returning
nothing this tick; on receipt, a fresh zero state is parsed and, only if
parsing succeeded, the shared state is replaced wholesale by the estimated
fresh state; otherwise the previous state is retained unchanged. -/
def readSensorPacket (recv : Option ((Nat → Nat) × Nat)) (now : Nat)
    (prev : RoombaState) : RoombaState :=
  match recv with
  | none => prev
  | some (packet, length) =>
    let pr := parseRoombaStateFromStreamPacket packet length now initState
    if pr.1 then estimate pr.2 else prev

/-- Device-level actions emitted by `performCommand`.  `wake` is the whole
`wakeup()` call (BRC pulse-and-settle plus the Start byte), performed first
on every invocation; the rest are the `roomba.*` calls, `Serial` writes and
fixed settle delays of the command branches. -/
inductive Action where
  | wake
  | cover
  | power
  | spot
  | dock
  | safeMode
  | playSong (n : Nat)
  | delayMs (ms : Nat)
deriving Repr, DecidableEq

/-- `performCommand(cmdchar)` (lines 106-154): `wakeup()` first, then the
if-chain over the command token.  Returns the success flag, the updated
shared state, and the emitted action sequence in order. -/
def performCommand (cmd : String) (s : RoombaState) :
    Bool × RoombaState × List Action :=
  if cmd = "turn_on" then
    (true, { s with cleaning := true }, [Action.wake, Action.cover])
  else if cmd = "turn_off" then
    (true, { s with cleaning := false }, [Action.wake, Action.power])
  else if cmd = "start" ∨ cmd = "pause" then
    (true, s, [Action.wake, Action.cover])
  else if cmd = "stop" then
    if s.cleaning then (true, s, [Action.wake, Action.cover])
    else (true, s, [Action.wake])
  else if cmd = "clean_spot" then
    (true, { s with cleaning := true }, [Action.wake, Action.spot])
  else if cmd = "locate" then
    (true, s,
      [Action.wake, Action.safeMode, Action.delayMs 50, Action.playSong 0,
       Action.delayMs 4000, Action.playSong 1, Action.delayMs 4000,
       Action.playSong 2, Action.delayMs 3500, Action.playSong 3])
  else if cmd = "return_to_base" then
    (true, { s with cleaning := true }, [Action.wake, Action.dock])
  else
    (false, s, [Action.wake])

/-- `Roomba::ChargeStateReconditioningCharging` of the Roomba library. -/
def ChargeStateReconditioningCharging : Nat := 1
/-- `Roomba::ChargeStateFullCharging` of the Roomba library. -/
def ChargeStateFullCharging : Nat := 2
/-- `Roomba::ChargeStateTrickleCharging` of the Roomba library. -/
def ChargeStateTrickleCharging : Nat := 3

/-- The JSON object serialized by `sendStatus` (lines 497-525).
`battery_level` is `(charge * 100) / capacity` in C `int` arithmetic
(truncating division); division by zero is undefined behavior, modelled as
`none` — the source has no zero-guard. -/
structure StatusMsg where
  battery_level : Option Int
  cleaning : Bool
  docked : Bool
  charging : Bool
  voltage : Nat
  current : Int
  charge : Int
  state : String
deriving Repr, DecidableEq

/-- `sendStatus()` body as a pure function from the shared state to the
published message. -/
def sendStatus (s : RoombaState) : StatusMsg :=
  { battery_level :=
      if s.capacity = 0 then none
      else some (Int.tdiv (s.charge * 100) (s.capacity : Int)),
    cleaning := s.cleaning,
    docked := s.docked,
    charging :=
      s.chargingState == ChargeStateReconditioningCharging
      || s.chargingState == ChargeStateFullCharging
      || s.chargingState == ChargeStateTrickleCharging,
    voltage := s.voltage,
    current := s.current,
    charge := s.charge,
    state :=
      if s.docked then "docked"
      else if s.cleaning then "cleaning" else "idle" }

/-- Outcome of one publish-interval check in `loop`. -/
inductive PubAction where
  | publish
  | requestStream
  | idle
deriving Repr, DecidableEq

/-- The scheduler state relevant to the publish tick: the `lastStateMsgTime`
timer and the shared `roombaState`. -/
structure SchedState where
  lastStateMsgTime : Int
  rs : RoombaState
deriving Repr, DecidableEq

/-- Lines 576-587 of `loop`: every iteration compares `now` against
`lastStateMsgTime`; once 10 s have elapsed, either re-request the stream
(sample older than 30 s, or already sent) or publish and mark sent. -/
def publishTick (now : Int) (st : SchedState) : SchedState × PubAction :=
  if now - st.lastStateMsgTime > 10000 then
    if now - (st.rs.timestamp : Int) > 30000 ∨ st.rs.sent then
      ({ st with lastStateMsgTime := now }, PubAction.requestStream)
    else
      ({ lastStateMsgTime := now, rs := { st.rs with sent := true } },
       PubAction.publish)
  else (st, PubAction.idle)

/-- Events driving the publish-relevant part of the scheduler: a loop
iteration reaching the publish check at time `now`, or the
`readSensorPacket()` call at the end of an iteration. -/
inductive Ev where
  | tick (now : Int)
  | decode (recv : Option ((Nat → Nat) × Nat)) (now : Nat)

/-- One scheduler event applied to the scheduler state. -/
def schedStep (st : SchedState) (e : Ev) : SchedState × PubAction :=
  match e with
  | Ev.tick now => publishTick now st
  | Ev.decode recv now =>
    ({ st with rs := readSensorPacket recv now st.rs }, PubAction.idle)

/-- Run a list of scheduler events, collecting the publish outcomes. -/
def schedRun (st : SchedState) : List Ev → SchedState × List PubAction
  | [] => (st, [])
  | e :: es =>
    ((schedRun (schedStep st e).1 es).1,
     (schedStep st e).2 :: (schedRun (schedStep st e).1 es).2)

/-- An event that replaces the shared state: a received packet whose parse
succeeded. -/
def successfulDecode : Ev → Bool
  | Ev.decode (some (packet, length)) now =>
    (parseRoombaStateFromStreamPacket packet length now initState).1
  | _ => false

/-- A publish-check instant at which a sample stamped `ts` has outlived the
30 s staleness window. -/
def staleTick (ts : Nat) : Ev → Bool
  | Ev.tick now => decide (now - (ts : Int) > 30000)
  | _ => false

/-- The two state-changing operations of the system: a sensor read
(possibly empty or failing) and a command translation. -/
inductive Op where
  | decode (recv : Option ((Nat → Nat) × Nat)) (now : Nat)
  | command (cmd : String)

/-- Whether an operation is a sensor read (as opposed to a command). -/
def Op.isDecode : Op → Bool
  | Op.decode _ _ => true
  | Op.command _ => false

/-- Effect of one operation on the shared `roombaState`. -/
def applyOp (s : RoombaState) (o : Op) : RoombaState :=
  match o with
  | Op.decode recv now => readSensorPacket recv now s
  | Op.command cmd => (performCommand cmd s).2.1

/-- The shared state after a sequence of operations from the zero-valued
startup state. -/
def runOps (ops : List Op) : RoombaState := ops.foldl applyOp initState

/-- One stream entry for a documented data-carrying sensor ID (19, 21, 22,
23, 25, 26) with its raw payload bytes as they appear on the wire
(big-endian for the 2-byte sensors). -/
inductive SensorEntry where
  | distance (hi lo : Nat)
  | chargingState (b : Nat)
  | voltage (hi lo : Nat)
  | current (hi lo : Nat)
  | charge (hi lo : Nat)
  | capacity (hi lo : Nat)
deriving Repr, DecidableEq

/-- Wire bytes of one entry: the sensor ID followed by its payload. -/
def encodeEntry : SensorEntry → List Nat
  | SensorEntry.distance hi lo => [19, hi, lo]
  | SensorEntry.chargingState b => [21, b]
  | SensorEntry.voltage hi lo => [22, hi, lo]
  | SensorEntry.current hi lo => [23, hi, lo]
  | SensorEntry.charge hi lo => [25, hi, lo]
  | SensorEntry.capacity hi lo => [26, hi, lo]

/-- Wire bytes of an entry sequence (concatenation). -/
def encodeEntries : List SensorEntry → List Nat
  | [] => []
  | e :: es => encodeEntry e ++ encodeEntries es

/-- All payload bytes of an entry are in byte range (`uint8_t` buffer). -/
def entryWF : SensorEntry → Prop
  | SensorEntry.distance hi lo => hi < 256 ∧ lo < 256
  | SensorEntry.chargingState b => b < 256
  | SensorEntry.voltage hi lo => hi < 256 ∧ lo < 256
  | SensorEntry.current hi lo => hi < 256 ∧ lo < 256
  | SensorEntry.charge hi lo => hi < 256 ∧ lo < 256
  | SensorEntry.capacity hi lo => hi < 256 ∧ lo < 256

instance : DecidablePred entryWF := by
  intro e
  cases e <;> simp only [entryWF] <;> infer_instance

/-- The field assignment an entry performs, at the value level (what the
corresponding `switch` case stores). -/
def applyEntry (s : RoombaState) : SensorEntry → RoombaState
  | SensorEntry.distance hi lo => { s with distance := toInt16 (hi * 256 + lo) }
  | SensorEntry.chargingState b => { s with chargingState := b }
  | SensorEntry.voltage hi lo => { s with voltage := toUInt16 (hi * 256 + lo) }
  | SensorEntry.current hi lo => { s with current := toInt16 (hi * 256 + lo) }
  | SensorEntry.charge hi lo => { s with charge := toInt16 (hi * 256 + lo) }
  | SensorEntry.capacity hi lo => { s with capacity := toUInt16 (hi * 256 + lo) }

/-- High byte of a 16-bit quantity. -/
def hiByte (n : Nat) : Nat := n / 256
/-- Low byte of a 16-bit quantity. -/
def loByte (n : Nat) : Nat := n % 256

/-- The 16-bit two's-complement wire image of a signed field value. -/
def int16Bits (x : Int) : Nat := (x % 65536).toNat

/-- Re-encode the decoded sensor fields of a state as one canonical packet,
one entry per documented data ID, big-endian payloads. -/
def encodeStateFields (s : RoombaState) : List Nat :=
  [19, hiByte (int16Bits s.distance), loByte (int16Bits s.distance),
   21, s.chargingState,
   22, hiByte s.voltage, loByte s.voltage,
   23, hiByte (int16Bits s.current), loByte (int16Bits s.current),
   25, hiByte (int16Bits s.charge), loByte (int16Bits s.charge),
   26, hiByte s.capacity, loByte s.capacity]

/-- Decode a concrete byte list through the source decoder (buffer read as
the C array, zero past the end; declared length = list length). -/
def decodeBytes (bytes : List Nat) : Bool × RoombaState :=
  parseRoombaStateFromStreamPacket (fun n => bytes.getD n 0) bytes.length 0
    initState

/-- The typed values of the six documented data-carrying sensor fields. -/
def sensorFields (s : RoombaState) : Int × Nat × Nat × Int × Int × Nat :=
  (s.distance, s.chargingState, s.voltage, s.current, s.charge, s.capacity)

/-- Decoded sensor fields lie in their machine-integer ranges. -/
def stateWF (s : RoombaState) : Prop :=
  -32768 ≤ s.distance ∧ s.distance < 32768 ∧ s.chargingState < 256 ∧
  s.voltage < 65536 ∧ -32768 ≤ s.current ∧ s.current < 32768 ∧
  -32768 ≤ s.charge ∧ s.charge < 32768 ∧ s.capacity < 65536

/-- The estimator in one formula: `cleaning` iff current strictly below
-400, `docked` iff not cleaning and current strictly above -50; the other
fields are untouched. -/
theorem estimate_spec (s : RoombaState) :
    (estimate s).cleaning = decide (s.current < -400)
    ∧ (estimate s).docked
        = (!decide (s.current < -400) && decide (s.current > -50))
    ∧ (estimate s).current = s.current
    ∧ (estimate s).distance = s.distance
    ∧ (estimate s).chargingState = s.chargingState
    ∧ (estimate s).voltage = s.voltage
    ∧ (estimate s).charge = s.charge
    ∧ (estimate s).capacity = s.capacity
    ∧ (estimate s).timestamp = s.timestamp
    ∧ (estimate s).sent = s.sent := by
  unfold estimate
  dsimp only
  split_ifs with h1 h2 <;> simp_all

/-- Claim C2: the published battery percentage is exactly the C integer
division `charge * 100 / capacity` whenever `capacity ≠ 0`; with
`capacity = 0` the computation is undefined (no zero-guard in the source),
and the zero-valued startup state does have `capacity = 0`. -/
theorem battery_level_division (s : RoombaState) :
    (s.capacity ≠ 0 →
      (sendStatus s).battery_level
        = some (Int.tdiv (s.charge * 100) (s.capacity : Int)))
    ∧ (s.capacity = 0 → (sendStatus s).battery_level = none)
    ∧ initState.capacity = 0 := by
  refine ⟨fun h => ?_, fun h => ?_, rfl⟩ <;> simp [sendStatus, h]

/-- Witness for `battery_level_division`: 1000 mAh of 2000 mAh publishes
50 percent. -/
theorem battery_level_division_witness :
    (sendStatus { initState with charge := 1000, capacity := 2000 }).battery_level
      = some 50 :=
  ((battery_level_division { initState with charge := 1000, capacity := 2000 }).1
    (by decide)).trans (by decide)

/-- Claim C6: every invocation of the command translator emits the wake
sequence before anything else, also for rejected tokens; and `turn_on`
followed by `turn_off` leaves `cleaning = false`, with the wake pulse
preceding each command's device action. -/
theorem wake_precedes_every_command (cmd : String) (s : RoombaState) :
    (performCommand cmd s).2.2.head? = some Action.wake
    ∧ (performCommand "turn_off" (performCommand "turn_on" s).2.1).2.1.cleaning
        = false
    ∧ (performCommand "turn_on" s).2.2 = [Action.wake, Action.cover]
    ∧ (performCommand "turn_off" (performCommand "turn_on" s).2.1).2.2
        = [Action.wake, Action.power] := by
  refine ⟨?_, rfl, rfl, rfl⟩
  unfold performCommand
  split_ifs <;> rfl

/-- Claim C7: a token outside the fixed vocabulary is rejected: the
translator returns failure, emits nothing beyond the unconditional wake, and
leaves the state unchanged. -/
theorem unknown_command_rejected (cmd : String) (s : RoombaState)
    (h1 : cmd ≠ "turn_on") (h2 : cmd ≠ "turn_off") (h3 : cmd ≠ "start")
    (h4 : cmd ≠ "pause") (h5 : cmd ≠ "stop") (h6 : cmd ≠ "clean_spot")
    (h7 : cmd ≠ "locate") (h8 : cmd ≠ "return_to_base") :
    performCommand cmd s = (false, s, [Action.wake]) := by
  simp [performCommand, h1, h2, h3, h4, h5, h6, h7, h8]

/-- Witness for `unknown_command_rejected` at the token "fly". -/
theorem unknown_command_rejected_witness :
    performCommand "fly" initState = (false, initState, [Action.wake]) :=
  unknown_command_rejected "fly" initState (by decide) (by decide) (by decide)
    (by decide) (by decide) (by decide) (by decide) (by decide)

/-- Claim C4: after any successful decode, `cleaning` (with `docked` clear)
holds iff the decoded current is strictly below -400 mA, `docked` (with
`cleaning` clear) iff strictly above -50 mA, both flags are false anywhere
in the band -400 ≤ current ≤ -50, and in particular the boundary currents
-400 and -50 yield neither flag. -/
theorem estimator_thresholds (packet : Nat → Nat) (length now : Nat)
    (prev : RoombaState)
    (h : (parseRoombaStateFromStreamPacket packet length now initState).1 = true) :
    ((readSensorPacket (some (packet, length)) now prev).cleaning = true
        ∧ (readSensorPacket (some (packet, length)) now prev).docked = false
      ↔ (readSensorPacket (some (packet, length)) now prev).current < -400)
    ∧ ((readSensorPacket (some (packet, length)) now prev).docked = true
        ∧ (readSensorPacket (some (packet, length)) now prev).cleaning = false
      ↔ (readSensorPacket (some (packet, length)) now prev).current > -50)
    ∧ (-400 ≤ (readSensorPacket (some (packet, length)) now prev).current
        ∧ (readSensorPacket (some (packet, length)) now prev).current ≤ -50
      → (readSensorPacket (some (packet, length)) now prev).cleaning = false
        ∧ (readSensorPacket (some (packet, length)) now prev).docked = false)
    ∧ ((readSensorPacket (some (packet, length)) now prev).current = -400
        ∨ (readSensorPacket (some (packet, length)) now prev).current = -50
      → (readSensorPacket (some (packet, length)) now prev).cleaning = false
        ∧ (readSensorPacket (some (packet, length)) now prev).docked = false) := by
  have hread : readSensorPacket (some (packet, length)) now prev
      = estimate (parseRoombaStateFromStreamPacket packet length now initState).2 := by
    simp [readSensorPacket, h]
  rw [hread]
  obtain ⟨e1, e2, e3, -⟩ :=
    estimate_spec (parseRoombaStateFromStreamPacket packet length now initState).2
  rw [e1, e2, e3]
  set c := (parseRoombaStateFromStreamPacket packet length now initState).2.current
    with hc
  by_cases h1 : c < -400 <;> by_cases h2 : c > -50 <;>
    simp [h1, h2] <;> omega

/-- Witness for `estimator_thresholds`: the packet `[23, 254, 112]` decodes
to current = -400 mA exactly, yielding neither `cleaning` nor `docked`. -/
theorem estimator_thresholds_witness :
    (readSensorPacket (some (fun n => [23, 254, 112].getD n 0, 3)) 0
      initState).cleaning = false
    ∧ (readSensorPacket (some (fun n => [23, 254, 112].getD n 0, 3)) 0
        initState).docked = false :=
  (estimator_thresholds (fun n => [23, 254, 112].getD n 0) 3 0 initState
    (by decide)).2.2.2 (Or.inl (by decide))

/-- Claim C1, counterexample: a successful decode on the dock (charging
state packet, current 0 puts `docked := true`) followed by the command
`turn_on` reaches a state with `cleaning` and `docked` both true — the
translator sets `cleaning` without clearing `docked`. -/
theorem cleaning_and_docked_both_true :
    (runOps [Op.decode (some (fun n => [21, 2].getD n 0, 2)) 0,
             Op.command "turn_on"]).cleaning = true
    ∧ (runOps [Op.decode (some (fun n => [21, 2].getD n 0, 2)) 0,
               Op.command "turn_on"]).docked = true := by
  decide

/-- One sensor read (successful, failed or empty) preserves mutual
exclusion of the derived flags. -/
theorem readSensorPacket_exclusive (recv : Option ((Nat → Nat) × Nat))
    (now : Nat) (s : RoombaState)
    (hs : (s.cleaning && s.docked) = false) :
    ((readSensorPacket recv now s).cleaning
      && (readSensorPacket recv now s).docked) = false := by
  cases recv with
  | none => simpa [readSensorPacket] using hs
  | some pl =>
    obtain ⟨packet, length⟩ := pl
    by_cases h : (parseRoombaStateFromStreamPacket packet length now initState).1 = true
    · have hread : readSensorPacket (some (packet, length)) now s
          = estimate (parseRoombaStateFromStreamPacket packet length now initState).2 := by
        simp [readSensorPacket, h]
      rw [hread]
      obtain ⟨e1, e2, -⟩ :=
        estimate_spec (parseRoombaStateFromStreamPacket packet length now initState).2
      rw [e1, e2]
      cases hd : decide
          ((parseRoombaStateFromStreamPacket packet length now initState).2.current
            < -400) <;>
        simp [hd]
    · have hread : readSensorPacket (some (packet, length)) now s = s := by
        simp only [Bool.not_eq_true] at h
        simp [readSensorPacket, h]
      rw [hread]
      exact hs

/-- Folding sensor reads only (no commands) keeps the derived flags
mutually exclusive. -/
theorem foldl_decode_exclusive : ∀ (ops : List Op) (s : RoombaState),
    (∀ o ∈ ops, o.isDecode = true) → (s.cleaning && s.docked) = false →
    ((ops.foldl applyOp s).cleaning && (ops.foldl applyOp s).docked) = false := by
  intro ops
  induction ops with
  | nil => intro s _ hs; simpa using hs
  | cons o os ih =>
    intro s h hs
    have ho : o.isDecode = true := h o (List.mem_cons_self o os)
    have hos : ∀ o2 ∈ os, o2.isDecode = true :=
      fun o2 hm => h o2 (List.mem_cons_of_mem o hm)
    cases o with
    | decode recv now =>
      simpa only [List.foldl_cons, applyOp] using
        ih (readSensorPacket recv now s) hos
          (readSensorPacket_exclusive recv now s hs)
    | command cmd => simp [Op.isDecode] at ho

/-- Claim C1, amended: the mutual exclusion of `cleaning` and `docked` is
an invariant of the estimator only — it holds in every state reached from
the zero-valued initial state by sensor reads alone; command translations
do not preserve it (see `cleaning_and_docked_both_true`). -/
theorem cleaning_docked_exclusive_decodes (ops : List Op)
    (h : ∀ o ∈ ops, o.isDecode = true) :
    ((runOps ops).cleaning && (runOps ops).docked) = false :=
  foldl_decode_exclusive ops initState h rfl

/-- Witness for `cleaning_docked_exclusive_decodes` on a one-decode run. -/
theorem cleaning_docked_exclusive_decodes_witness :
    ((runOps [Op.decode (some (fun n => [21, 2].getD n 0, 2)) 0]).cleaning
      && (runOps [Op.decode (some (fun n => [21, 2].getD n 0, 2)) 0]).docked)
      = false := by
  apply cleaning_docked_exclusive_decodes
  intro o ho
  rw [List.mem_singleton] at ho
  subst ho
  rfl

/-- The scan loop fails exactly when some scan position holds an
unrecognized packet ID. -/
theorem parseLoop_fail_iff (packet : Nat → Nat) (length : Nat) :
    ∀ (fuel i : Nat) (s : RoombaState),
      (parseLoop packet length fuel i s).1 = false
      ↔ ∃ j ∈ scanAux packet length fuel i, recognizedId (packet j) = false := by
  intro fuel
  induction fuel with
  | zero => intro i s; simp [parseLoop, scanAux]
  | succ fuel ih =>
    intro i s
    by_cases hi : i < length
    · cases hw : entryWidth (packet i) with
      | some w =>
        rw [show parseLoop packet length (fuel + 1) i s
            = parseLoop packet length fuel (i + w) (entryUpdate packet i s) by
          simp [parseLoop, hi, hw]]
        rw [show scanAux packet length (fuel + 1) i
            = i :: scanAux packet length fuel (i + w) by
          simp [scanAux, hi, hw]]
        rw [ih]
        constructor
        · rintro ⟨j, hj, hjr⟩
          exact ⟨j, List.mem_cons_of_mem _ hj, hjr⟩
        · rintro ⟨j, hj, hjr⟩
          rcases List.mem_cons.mp hj with rfl | hj2
          · exfalso
            unfold recognizedId at hjr
            rw [hw] at hjr
            simp at hjr
          · exact ⟨j, hj2, hjr⟩
      | none =>
        rw [show parseLoop packet length (fuel + 1) i s = (false, s) by
          simp [parseLoop, hi, hw]]
        rw [show scanAux packet length (fuel + 1) i = [i] by
          simp [scanAux, hi, hw]]
        simp [recognizedId, hw]
    · simp [parseLoop, scanAux, hi]

/-- Claim C3: a decode fails iff some scan position holds an unrecognized
packet ID, and a failed decode leaves the previously held shared state
completely unchanged. -/
theorem unrecognized_id_fails_and_preserves (packet : Nat → Nat)
    (length now : Nat) (prev : RoombaState) :
    ((parseRoombaStateFromStreamPacket packet length now initState).1 = false
      ↔ ∃ j ∈ scanPositions packet length, recognizedId (packet j) = false)
    ∧ ((parseRoombaStateFromStreamPacket packet length now initState).1 = false
      → readSensorPacket (some (packet, length)) now prev = prev) := by
  constructor
  · exact parseLoop_fail_iff packet length length 0 _
  · intro h
    simp [readSensorPacket, h]

/-- Witness for `unrecognized_id_fails_and_preserves`: a buffer holding the
unrecognized ID 99 fails and the previous state is retained. -/
theorem unrecognized_id_fails_and_preserves_witness :
    readSensorPacket (some (fun _n => 99, 1)) 5 initState = initState :=
  (unrecognized_id_fails_and_preserves (fun _n => 99) 1 5 initState).2 (by decide)

/-- Each `switch` case only writes the field of its own ID, and never
touches `sent` or `timestamp`. -/
theorem entryUpdate_frame (packet : Nat → Nat) (i : Nat) (s : RoombaState) :
    (packet i ≠ 19 → (entryUpdate packet i s).distance = s.distance)
    ∧ (packet i ≠ 21 → (entryUpdate packet i s).chargingState = s.chargingState)
    ∧ (packet i ≠ 22 → (entryUpdate packet i s).voltage = s.voltage)
    ∧ (packet i ≠ 23 → (entryUpdate packet i s).current = s.current)
    ∧ (packet i ≠ 25 → (entryUpdate packet i s).charge = s.charge)
    ∧ (packet i ≠ 26 → (entryUpdate packet i s).capacity = s.capacity)
    ∧ (entryUpdate packet i s).sent = s.sent
    ∧ (entryUpdate packet i s).timestamp = s.timestamp := by
  unfold entryUpdate
  split_ifs <;> simp_all

/-- The scan loop only writes a sensor field when the field's ID occurs at
some scan position, and never touches `sent` or `timestamp`. -/
theorem parseLoop_frame (packet : Nat → Nat) (length : Nat) :
    ∀ (fuel i : Nat) (s : RoombaState),
      ((∀ j ∈ scanAux packet length fuel i, packet j ≠ 19)
        → (parseLoop packet length fuel i s).2.distance = s.distance)
      ∧ ((∀ j ∈ scanAux packet length fuel i, packet j ≠ 21)
        → (parseLoop packet length fuel i s).2.chargingState = s.chargingState)
      ∧ ((∀ j ∈ scanAux packet length fuel i, packet j ≠ 22)
        → (parseLoop packet length fuel i s).2.voltage = s.voltage)
      ∧ ((∀ j ∈ scanAux packet length fuel i, packet j ≠ 23)
        → (parseLoop packet length fuel i s).2.current = s.current)
      ∧ ((∀ j ∈ scanAux packet length fuel i, packet j ≠ 25)
        → (parseLoop packet length fuel i s).2.charge = s.charge)
      ∧ ((∀ j ∈ scanAux packet length fuel i, packet j ≠ 26)
        → (parseLoop packet length fuel i s).2.capacity = s.capacity)
      ∧ (parseLoop packet length fuel i s).2.sent = s.sent
      ∧ (parseLoop packet length fuel i s).2.timestamp = s.timestamp := by
  intro fuel
  induction fuel with
  | zero => intro i s; simp [parseLoop, scanAux]
  | succ fuel ih =>
    intro i s
    by_cases hi : i < length
    · cases hw : entryWidth (packet i) with
      | some w =>
        rw [show parseLoop packet length (fuel + 1) i s
            = parseLoop packet length fuel (i + w) (entryUpdate packet i s) by
          simp [parseLoop, hi, hw]]
        rw [show scanAux packet length (fuel + 1) i
            = i :: scanAux packet length fuel (i + w) by
          simp [scanAux, hi, hw]]
        obtain ⟨u1, u2, u3, u4, u5, u6, u7, u8⟩ := entryUpdate_frame packet i s
        obtain ⟨f1, f2, f3, f4, f5, f6, f7, f8⟩ :=
          ih (i + w) (entryUpdate packet i s)
        refine ⟨?_, ?_, ?_, ?_, ?_, ?_, ?_, ?_⟩
        · intro hall
          rw [f1 fun j hj => hall j (List.mem_cons_of_mem _ hj)]
          exact u1 (hall i (List.mem_cons_self i _))
        · intro hall
          rw [f2 fun j hj => hall j (List.mem_cons_of_mem _ hj)]
          exact u2 (hall i (List.mem_cons_self i _))
        · intro hall
          rw [f3 fun j hj => hall j (List.mem_cons_of_mem _ hj)]
          exact u3 (hall i (List.mem_cons_self i _))
        · intro hall
          rw [f4 fun j hj => hall j (List.mem_cons_of_mem _ hj)]
          exact u4 (hall i (List.mem_cons_self i _))
        · intro hall
          rw [f5 fun j hj => hall j (List.mem_cons_of_mem _ hj)]
          exact u5 (hall i (List.mem_cons_self i _))
        · intro hall
          rw [f6 fun j hj => hall j (List.mem_cons_of_mem _ hj)]
          exact u6 (hall i (List.mem_cons_self i _))
        · rw [f7]; exact u7
        · rw [f8]; exact u8
      | none =>
        rw [show parseLoop packet length (fuel + 1) i s = (false, s) by
          simp [parseLoop, hi, hw]]
        simp
    · rw [show parseLoop packet length (fuel + 1) i s = (true, s) by
        simp [parseLoop, hi]]
      simp

/-- Claim C10: an empty poll or failed decode leaves the previous state
fully intact, while a successful decode replaces the shared state wholesale
with the estimated parse of a fresh zero state: the result does not depend
on the previous state, `sent` restarts false, and every sensor field whose
ID never occurs at a scan position is 0. -/
theorem wholesale_replacement (packet : Nat → Nat) (length now : Nat)
    (prev : RoombaState) :
    readSensorPacket none now prev = prev
    ∧ ((parseRoombaStateFromStreamPacket packet length now initState).1 = false
        → readSensorPacket (some (packet, length)) now prev = prev)
    ∧ ((parseRoombaStateFromStreamPacket packet length now initState).1 = true
        → readSensorPacket (some (packet, length)) now prev
            = estimate (parseRoombaStateFromStreamPacket packet length now initState).2
          ∧ (readSensorPacket (some (packet, length)) now prev).sent = false
          ∧ ((∀ j ∈ scanPositions packet length, packet j ≠ 19)
              → (readSensorPacket (some (packet, length)) now prev).distance = 0)
          ∧ ((∀ j ∈ scanPositions packet length, packet j ≠ 21)
              → (readSensorPacket (some (packet, length)) now prev).chargingState = 0)
          ∧ ((∀ j ∈ scanPositions packet length, packet j ≠ 22)
              → (readSensorPacket (some (packet, length)) now prev).voltage = 0)
          ∧ ((∀ j ∈ scanPositions packet length, packet j ≠ 23)
              → (readSensorPacket (some (packet, length)) now prev).current = 0)
          ∧ ((∀ j ∈ scanPositions packet length, packet j ≠ 25)
              → (readSensorPacket (some (packet, length)) now prev).charge = 0)
          ∧ ((∀ j ∈ scanPositions packet length, packet j ≠ 26)
              → (readSensorPacket (some (packet, length)) now prev).capacity = 0)) := by
  refine ⟨rfl, fun h => by simp [readSensorPacket, h], fun h => ?_⟩
  have hread : readSensorPacket (some (packet, length)) now prev
      = estimate (parseRoombaStateFromStreamPacket packet length now initState).2 := by
    simp [readSensorPacket, h]
  obtain ⟨-, -, -, e4, e5, e6, e7, e8, -, e10⟩ :=
    estimate_spec (parseRoombaStateFromStreamPacket packet length now initState).2
  obtain ⟨f1, f2, f3, f4, f5, f6, f7, -⟩ :=
    parseLoop_frame packet length length 0 { initState with timestamp := now }
  have hp : parseRoombaStateFromStreamPacket packet length now initState
      = parseLoop packet length length 0 { initState with timestamp := now } := rfl
  rw [hread]
  refine ⟨rfl, ?_, ?_, ?_, ?_, ?_, ?_, ?_⟩
  · rw [e10, hp, f7]; rfl
  · intro hall; rw [e4, hp, f1 hall]; rfl
  · intro hall; rw [e5, hp, f2 hall]; rfl
  · intro hall; rw [e6, hp, f3 hall]; rfl
  · intro hall
    have h3 := estimate_spec
      (parseRoombaStateFromStreamPacket packet length now initState).2
    rw [h3.2.2.1, hp, f4 hall]; rfl
  · intro hall; rw [e7, hp, f5 hall]; rfl
  · intro hall; rw [e8, hp, f6 hall]; rfl

/-- Witness for `wholesale_replacement`: a skip-only packet (group ID 0)
decodes successfully, restarts `sent` and leaves `distance` zero. -/
theorem wholesale_replacement_witness :
    readSensorPacket (some (fun _n => 0, 1)) 5 initState
        = estimate (parseRoombaStateFromStreamPacket (fun _n => 0) 1 5 initState).2
    ∧ (readSensorPacket (some (fun _n => 0, 1)) 5 initState).sent = false
    ∧ (readSensorPacket (some (fun _n => 0, 1)) 5 initState).distance = 0 := by
  have h := (wholesale_replacement (fun _n => 0) 1 5 initState).2.2 (by decide)
  exact ⟨h.1, h.2.1, h.2.2.1 (by decide)⟩

/-- While the current sample is already marked sent, a scheduler step that
is not a successful decode never publishes and leaves the shared state
untouched. -/
theorem schedStep_sent (st : SchedState) (e : Ev)
    (hs : st.rs.sent = true) (hd : successfulDecode e = false) :
    (schedStep st e).2 ≠ PubAction.publish ∧ (schedStep st e).1.rs = st.rs := by
  cases e with
  | tick now =>
    simp only [schedStep, publishTick]
    split_ifs with h1 h2
    · exact ⟨by simp, rfl⟩
    · exact absurd (Or.inr (by simp [hs])) h2
    · exact ⟨by simp, rfl⟩
  | decode recv now =>
    cases recv with
    | none => exact ⟨by simp [schedStep], by simp [schedStep, readSensorPacket]⟩
    | some pl =>
      obtain ⟨packet, length⟩ := pl
      have hfail :
          (parseRoombaStateFromStreamPacket packet length now initState).1 = false := by
        simpa [successfulDecode] using hd
      exact ⟨by simp [schedStep], by simp [schedStep, readSensorPacket, hfail]⟩

/-- While the current sample is already marked sent, a run of scheduler
events containing no successful decode publishes nothing. -/
theorem schedRun_no_publish : ∀ (evs : List Ev) (st : SchedState),
    st.rs.sent = true → (∀ e ∈ evs, successfulDecode e = false) →
    PubAction.publish ∉ (schedRun st evs).2 := by
  intro evs
  induction evs with
  | nil => intro st _ _; simp [schedRun]
  | cons e es ih =>
    intro st hs h
    have hst := schedStep_sent st e hs (h e (List.mem_cons_self e es))
    simp only [schedRun, List.mem_cons]
    rintro (h1 | h2)
    · exact hst.1 h1.symm
    · exact ih (schedStep st e).1 (by rw [hst.2]; exact hs)
        (fun e2 hm => h e2 (List.mem_cons_of_mem e hm)) h2

/-- Claim C5: a publish tick publishes exactly when the interval elapsed,
the sample is within the 30 s staleness window and not yet sent (otherwise,
once the interval elapsed, it re-requests the stream); consequently a
sample marked sent is never republished as long as no successful decode and
no staleness expiry occurs. -/
theorem sent_sample_not_republished :
    (∀ (now : Int) (st : SchedState),
        ((publishTick now st).2 = PubAction.publish
          ↔ now - st.lastStateMsgTime > 10000
            ∧ ¬(now - (st.rs.timestamp : Int) > 30000) ∧ st.rs.sent = false)
        ∧ ((publishTick now st).2 = PubAction.requestStream
          ↔ now - st.lastStateMsgTime > 10000
            ∧ (now - (st.rs.timestamp : Int) > 30000 ∨ st.rs.sent = true)))
    ∧ (∀ (st : SchedState) (evs : List Ev), st.rs.sent = true →
        (∀ e ∈ evs, successfulDecode e = false
          ∧ staleTick st.rs.timestamp e = false) →
        PubAction.publish ∉ (schedRun st evs).2) := by
  constructor
  · intro now st
    simp only [publishTick]
    split_ifs with h1 h2
    · constructor
      · constructor
        · intro hc; cases hc
        · rintro ⟨-, hns, hnsent⟩
          rcases h2 with h2 | h2
          · exact absurd h2 hns
          · rw [h2] at hnsent; cases hnsent
      · constructor
        · intro _
          refine ⟨h1, ?_⟩
          rcases h2 with h2 | h2
          · exact Or.inl h2
          · exact Or.inr h2
        · intro _; rfl
    · constructor
      · constructor
        · intro _
          refine ⟨h1, fun hst => h2 (Or.inl hst), ?_⟩
          cases hsent : st.rs.sent
          · rfl
          · exact absurd (Or.inr (by simp [hsent])) h2
        · intro _; rfl
      · constructor
        · intro hc; cases hc
        · rintro ⟨-, h3⟩
          rcases h3 with h3 | h3
          · exact absurd (Or.inl h3) h2
          · exact absurd (Or.inr (by simp [h3])) h2
    · constructor
      · constructor
        · intro hc; cases hc
        · rintro ⟨h3, -⟩; exact absurd h3 h1
      · constructor
        · intro hc; cases hc
        · rintro ⟨h3, -⟩; exact absurd h3 h1
  · intro st evs hs h
    exact schedRun_no_publish evs st hs (fun e hm => (h e hm).1)

/-- Witness for `sent_sample_not_republished`: with the sample sent, a
publish-interval tick at 20 s produces no publish. -/
theorem sent_sample_not_republished_witness :
    PubAction.publish ∉
      (schedRun { lastStateMsgTime := 0, rs := { initState with sent := true } }
        [Ev.tick 20000]).2 := by
  apply sent_sample_not_republished.2
    { lastStateMsgTime := 0, rs := { initState with sent := true } }
    [Ev.tick 20000] rfl
  intro e he
  rw [List.mem_singleton] at he
  subst he
  exact ⟨rfl, by decide⟩

/-- Signed 16-bit reinterpretation always lands in the int16 range. -/
theorem toInt16_range (n : Nat) : -32768 ≤ toInt16 n ∧ toInt16 n < 32768 := by
  unfold toInt16
  have h : n % 65536 < 65536 := Nat.mod_lt n (by omega)
  split_ifs with h1 <;> omega

/-- Unsigned 16-bit reduction always lands below 2^16. -/
theorem toUInt16_lt (n : Nat) : toUInt16 n < 65536 :=
  Nat.mod_lt n (by omega)

/-- Splitting a 16-bit quantity into bytes and recombining is lossless. -/
theorem hi_lo_recompose (n : Nat) (h : n < 65536) :
    hiByte n * 256 + loByte n = n := by
  unfold hiByte loByte
  omega

/-- 16-bit reduction is the identity below 2^16. -/
theorem toUInt16_id (n : Nat) (h : n < 65536) : toUInt16 n = n :=
  Nat.mod_eq_of_lt h

/-- Signed round trip: reinterpreting the wire image of an in-range signed
value recovers the value. -/
theorem toInt16_int16Bits (x : Int) (h1 : -32768 ≤ x) (h2 : x < 32768) :
    toInt16 (int16Bits x) = x := by
  unfold toInt16 int16Bits
  split_ifs with h3 <;> omega

/-- The wire image of a signed value is a 16-bit quantity. -/
theorem int16Bits_lt (x : Int) : int16Bits x < 65536 := by
  unfold int16Bits
  omega

/-- A well-formed entry keeps the decoded fields in machine range. -/
theorem applyEntry_wf (s : RoombaState) (e : SensorEntry)
    (hs : stateWF s) (he : entryWF e) : stateWF (applyEntry s e) := by
  obtain ⟨w1, w2, w3, w4, w5, w6, w7, w8, w9⟩ := hs
  cases e with
  | distance hi lo =>
    obtain ⟨r1, r2⟩ := toInt16_range (hi * 256 + lo)
    exact ⟨r1, r2, w3, w4, w5, w6, w7, w8, w9⟩
  | chargingState b =>
    exact ⟨w1, w2, he, w4, w5, w6, w7, w8, w9⟩
  | voltage hi lo =>
    exact ⟨w1, w2, w3, toUInt16_lt (hi * 256 + lo), w5, w6, w7, w8, w9⟩
  | current hi lo =>
    obtain ⟨r1, r2⟩ := toInt16_range (hi * 256 + lo)
    exact ⟨w1, w2, w3, w4, r1, r2, w7, w8, w9⟩
  | charge hi lo =>
    obtain ⟨r1, r2⟩ := toInt16_range (hi * 256 + lo)
    exact ⟨w1, w2, w3, w4, w5, w6, r1, r2, w9⟩
  | capacity hi lo =>
    exact ⟨w1, w2, w3, w4, w5, w6, w7, w8, toUInt16_lt (hi * 256 + lo)⟩

/-- Folding well-formed entries preserves machine ranges. -/
theorem foldl_applyEntry_wf : ∀ (es : List SensorEntry) (s : RoombaState),
    stateWF s → (∀ e ∈ es, entryWF e) → stateWF (es.foldl applyEntry s) := by
  intro es
  induction es with
  | nil => intro s hs _; simpa using hs
  | cons e es ih =>
    intro s hs h
    rw [List.foldl_cons]
    exact ih (applyEntry s e)
      (applyEntry_wf s e hs (h e (List.mem_cons_self e es)))
      (fun e2 hm => h e2 (List.mem_cons_of_mem e hm))

/-- One well-placed entry advances the scan loop by its width and performs
exactly its field assignment. -/
theorem parseLoop_encode_step (f : Nat → Nat) (length fuel i : Nat)
    (s : RoombaState) (e : SensorEntry)
    (hb : ∀ j, j < (encodeEntry e).length → f (i + j) = (encodeEntry e).getD j 0)
    (hlt : i + (encodeEntry e).length ≤ length) :
    parseLoop f length (fuel + 1) i s
      = parseLoop f length fuel (i + (encodeEntry e).length) (applyEntry s e) := by
  cases e with
  | distance hi lo =>
    have h0 : f i = 19 := by simpa using hb 0 (by simp [encodeEntry])
    have h1 : f (i + 1) = hi := by simpa using hb 1 (by simp [encodeEntry])
    have h2 : f (i + 2) = lo := by simpa using hb 2 (by simp [encodeEntry])
    have hilt : i < length := by simp [encodeEntry] at hlt; omega
    simp [parseLoop, hilt, h0, h1, h2, entryWidth, entryUpdate, applyEntry,
      encodeEntry]
  | chargingState b =>
    have h0 : f i = 21 := by simpa using hb 0 (by simp [encodeEntry])
    have h1 : f (i + 1) = b := by simpa using hb 1 (by simp [encodeEntry])
    have hilt : i < length := by simp [encodeEntry] at hlt; omega
    simp [parseLoop, hilt, h0, h1, entryWidth, entryUpdate, applyEntry,
      encodeEntry]
  | voltage hi lo =>
    have h0 : f i = 22 := by simpa using hb 0 (by simp [encodeEntry])
    have h1 : f (i + 1) = hi := by simpa using hb 1 (by simp [encodeEntry])
    have h2 : f (i + 2) = lo := by simpa using hb 2 (by simp [encodeEntry])
    have hilt : i < length := by simp [encodeEntry] at hlt; omega
    simp [parseLoop, hilt, h0, h1, h2, entryWidth, entryUpdate, applyEntry,
      encodeEntry]
  | current hi lo =>
    have h0 : f i = 23 := by simpa using hb 0 (by simp [encodeEntry])
    have h1 : f (i + 1) = hi := by simpa using hb 1 (by simp [encodeEntry])
    have h2 : f (i + 2) = lo := by simpa using hb 2 (by simp [encodeEntry])
    have hilt : i < length := by simp [encodeEntry] at hlt; omega
    simp [parseLoop, hilt, h0, h1, h2, entryWidth, entryUpdate, applyEntry,
      encodeEntry]
  | charge hi lo =>
    have h0 : f i = 25 := by simpa using hb 0 (by simp [encodeEntry])
    have h1 : f (i + 1) = hi := by simpa using hb 1 (by simp [encodeEntry])
    have h2 : f (i + 2) = lo := by simpa using hb 2 (by simp [encodeEntry])
    have hilt : i < length := by simp [encodeEntry] at hlt; omega
    simp [parseLoop, hilt, h0, h1, h2, entryWidth, entryUpdate, applyEntry,
      encodeEntry]
  | capacity hi lo =>
    have h0 : f i = 26 := by simpa using hb 0 (by simp [encodeEntry])
    have h1 : f (i + 1) = hi := by simpa using hb 1 (by simp [encodeEntry])
    have h2 : f (i + 2) = lo := by simpa using hb 2 (by simp [encodeEntry])
    have hilt : i < length := by simp [encodeEntry] at hlt; omega
    simp [parseLoop, hilt, h0, h1, h2, entryWidth, entryUpdate, applyEntry,
      encodeEntry]

/-- Scanning the byte image of an entry list always succeeds and decodes to
the fold of the entries' field assignments. -/
theorem parseLoop_encode (f : Nat → Nat) (length : Nat) :
    ∀ (es : List SensorEntry) (fuel i : Nat) (s : RoombaState),
      (∀ j, j < (encodeEntries es).length → f (i + j) = (encodeEntries es).getD j 0) →
      length = i + (encodeEntries es).length →
      (encodeEntries es).length ≤ fuel →
      parseLoop f length fuel i s = (true, es.foldl applyEntry s) := by
  intro es
  induction es with
  | nil =>
    intro fuel i s _ hlen _
    simp only [encodeEntries, List.length_nil, Nat.add_zero] at hlen
    subst hlen
    cases fuel <;> simp [parseLoop]
  | cons e es ih =>
    intro fuel i s hbytes hlen hfuel
    have hwpos : 1 ≤ (encodeEntry e).length := by cases e <;> simp [encodeEntry]
    have hlen2 : (encodeEntries (e :: es)).length
        = (encodeEntry e).length + (encodeEntries es).length := by
      simp [encodeEntries]
    obtain ⟨fuel2, rfl⟩ : ∃ fuel2, fuel = fuel2 + 1 :=
      ⟨fuel - 1, by omega⟩
    rw [parseLoop_encode_step f length fuel2 i s e
      (fun j hj => by
        have hz := hbytes j (by omega)
        rw [hz]
        show (encodeEntries (e :: es)).getD j 0 = (encodeEntry e).getD j 0
        rw [show encodeEntries (e :: es) = encodeEntry e ++ encodeEntries es
          from rfl]
        exact List.getD_append _ _ _ _ hj)
      (by omega)]
    rw [List.foldl_cons]
    apply ih fuel2 (i + (encodeEntry e).length) (applyEntry s e)
    · intro j hj
      have hz := hbytes ((encodeEntry e).length + j) (by omega)
      rw [show i + ((encodeEntry e).length + j)
          = i + (encodeEntry e).length + j by omega] at hz
      rw [hz]
      show (encodeEntries (e :: es)).getD ((encodeEntry e).length + j) 0
          = (encodeEntries es).getD j 0
      rw [show encodeEntries (e :: es) = encodeEntry e ++ encodeEntries es
        from rfl]
      rw [List.getD_append_right _ _ _ _ (by omega)]
      congr 1
      omega
    · omega
    · omega

/-- Decoding the canonical re-encoding of in-range sensor fields recovers
exactly those fields. -/
theorem decode_canonical (s : RoombaState) (hs : stateWF s) :
    (decodeBytes (encodeStateFields s)).1 = true
    ∧ sensorFields (decodeBytes (encodeStateFields s)).2 = sensorFields s := by
  obtain ⟨w1, w2, w3, w4, w5, w6, w7, w8, w9⟩ := hs
  have henc : encodeStateFields s = encodeEntries
      [SensorEntry.distance (hiByte (int16Bits s.distance)) (loByte (int16Bits s.distance)),
       SensorEntry.chargingState s.chargingState,
       SensorEntry.voltage (hiByte s.voltage) (loByte s.voltage),
       SensorEntry.current (hiByte (int16Bits s.current)) (loByte (int16Bits s.current)),
       SensorEntry.charge (hiByte (int16Bits s.charge)) (loByte (int16Bits s.charge)),
       SensorEntry.capacity (hiByte s.capacity) (loByte s.capacity)] := by
    simp [encodeStateFields, encodeEntries, encodeEntry]
  rw [henc]
  have hdec : decodeBytes (encodeEntries
      [SensorEntry.distance (hiByte (int16Bits s.distance)) (loByte (int16Bits s.distance)),
       SensorEntry.chargingState s.chargingState,
       SensorEntry.voltage (hiByte s.voltage) (loByte s.voltage),
       SensorEntry.current (hiByte (int16Bits s.current)) (loByte (int16Bits s.current)),
       SensorEntry.charge (hiByte (int16Bits s.charge)) (loByte (int16Bits s.charge)),
       SensorEntry.capacity (hiByte s.capacity) (loByte s.capacity)])
      = (true,
        [SensorEntry.distance (hiByte (int16Bits s.distance)) (loByte (int16Bits s.distance)),
         SensorEntry.chargingState s.chargingState,
         SensorEntry.voltage (hiByte s.voltage) (loByte s.voltage),
         SensorEntry.current (hiByte (int16Bits s.current)) (loByte (int16Bits s.current)),
         SensorEntry.charge (hiByte (int16Bits s.charge)) (loByte (int16Bits s.charge)),
         SensorEntry.capacity (hiByte s.capacity) (loByte s.capacity)].foldl
          applyEntry { initState with timestamp := 0 }) := by
    unfold decodeBytes parseRoombaStateFromStreamPacket
    exact parseLoop_encode _ _ _ _ 0 _ (fun j _hj => by simp) (by simp) le_rfl
  rw [hdec]
  have hd1 : hiByte (int16Bits s.distance) * 256 + loByte (int16Bits s.distance)
      = int16Bits s.distance := hi_lo_recompose _ (int16Bits_lt _)
  have hd2 : hiByte s.voltage * 256 + loByte s.voltage = s.voltage :=
    hi_lo_recompose _ w4
  have hd3 : hiByte (int16Bits s.current) * 256 + loByte (int16Bits s.current)
      = int16Bits s.current := hi_lo_recompose _ (int16Bits_lt _)
  have hd4 : hiByte (int16Bits s.charge) * 256 + loByte (int16Bits s.charge)
      = int16Bits s.charge := hi_lo_recompose _ (int16Bits_lt _)
  have hd5 : hiByte s.capacity * 256 + loByte s.capacity = s.capacity :=
    hi_lo_recompose _ w9
  refine ⟨rfl, ?_⟩
  simp only [List.foldl_cons, List.foldl_nil, applyEntry, sensorFields,
    hd1, hd2, hd3, hd4, hd5]
  rw [toInt16_int16Bits s.distance w1 w2, toInt16_int16Bits s.current w5 w6,
    toInt16_int16Bits s.charge w7 w8, toUInt16_id s.voltage w4,
    toUInt16_id s.capacity w9]

/-- Claim C8: decoding any byte sequence built from the documented data
sensor IDs succeeds, and re-encoding the decoded field values and decoding
again reproduces the same typed values for the known field set. -/
theorem decode_encode_roundtrip (es : List SensorEntry)
    (h : ∀ e ∈ es, entryWF e) :
    (decodeBytes (encodeEntries es)).1 = true
    ∧ sensorFields
        (decodeBytes (encodeStateFields (decodeBytes (encodeEntries es)).2)).2
      = sensorFields (decodeBytes (encodeEntries es)).2 := by
  have hinit : stateWF { initState with timestamp := 0 } := by
    refine ⟨?_, ?_, ?_, ?_, ?_, ?_, ?_, ?_, ?_⟩ <;> norm_num [initState]
  have hdec : decodeBytes (encodeEntries es)
      = (true, es.foldl applyEntry { initState with timestamp := 0 }) := by
    unfold decodeBytes parseRoombaStateFromStreamPacket
    exact parseLoop_encode _ _ es _ 0 _ (fun j _hj => by simp) (by simp) le_rfl
  have hwf : stateWF (decodeBytes (encodeEntries es)).2 := by
    rw [hdec]
    exact foldl_applyEntry_wf es _ hinit h
  exact ⟨by rw [hdec], (decode_canonical _ hwf).2⟩

/-- Witness for `decode_encode_roundtrip` on a two-entry packet (current
-456 mA, capacity 2000 mAh). -/
theorem decode_encode_roundtrip_witness :
    (decodeBytes (encodeEntries
      [SensorEntry.current 254 56, SensorEntry.capacity 7 208])).1 = true
    ∧ sensorFields
        (decodeBytes (encodeStateFields
          (decodeBytes (encodeEntries
            [SensorEntry.current 254 56, SensorEntry.capacity 7 208])).2)).2
      = sensorFields
          (decodeBytes (encodeEntries
            [SensorEntry.current 254 56, SensorEntry.capacity 7 208])).2 :=
  decode_encode_roundtrip
    [SensorEntry.current 254 56, SensorEntry.capacity 7 208] (by decide)

/-- A recognized entry whose fixed width crosses the declared length is
still consumed and the loop then stops with success. -/
theorem truncated_final_entry
    (packet : Nat → Nat) (length fuel i : Nat) (s : RoombaState) (w : Nat)
    (hi : i < length) (hw : entryWidth (packet i) = some w)
    (hpast : length < i + w) :
    parseLoop packet length (fuel + 1) i s = (true, entryUpdate packet i s) := by
  have hstop : ∀ (fuel2 : Nat) (s2 : RoombaState),
      parseLoop packet length fuel2 (i + w) s2 = (true, s2) := by
    intro fuel2 s2
    cases fuel2 <;> simp [parseLoop, show ¬ i + w < length by omega]
  simp [parseLoop, hi, hw, hstop]

/-- Claim C9: the loop bound is checked only at the start of each entry — a
recognized ID whose field extends past the declared length is decoded
successfully anyway, and the decoded value is computed from the bytes at
indices at or beyond the declared length (demonstrated with a current
entry at index 0 of a buffer declared one byte long, whose value is read
from indices 1 and 2). -/
theorem truncated_entry_reads_past_length (packet : Nat → Nat)
    (length fuel i : Nat) (s : RoombaState) (w : Nat)
    (f : Nat → Nat) (s2 : RoombaState) (now : Nat)
    (hi : i < length) (hw : entryWidth (packet i) = some w)
    (hpast : length < i + w) (hf : f 0 = 23) :
    parseLoop packet length (fuel + 1) i s = (true, entryUpdate packet i s)
    ∧ parseRoombaStateFromStreamPacket f 1 now s2
        = (true, { s2 with timestamp := now,
                           current := toInt16 (f 1 * 256 + f 2) }) := by
  refine ⟨truncated_final_entry packet length fuel i s w hi hw hpast, ?_⟩
  simp [parseRoombaStateFromStreamPacket, parseLoop, entryWidth, entryUpdate, hf]

/-- Witness for `truncated_entry_reads_past_length`: a battery-charge entry
truncated after its ID, and a current entry read past the one-byte declared
length. -/
theorem truncated_entry_reads_past_length_witness :
    parseLoop (fun n => [25, 9].getD n 0) 2 2 0 initState
        = (true, entryUpdate (fun n => [25, 9].getD n 0) 0 initState)
    ∧ parseRoombaStateFromStreamPacket (fun n => [23, 1, 5].getD n 0) 1 7
        initState
        = (true, { initState with timestamp := 7,
                                  current := toInt16 (1 * 256 + 5) }) :=
  truncated_entry_reads_past_length (fun n => [25, 9].getD n 0) 2 1 0
    initState 3 (fun n => [23, 1, 5].getD n 0) initState 7
    (by decide) (by decide) (by decide) (by decide)

end Roomba
